import Mathlib

/-!
# Verification of the Gemara MCP server's filtering and harmonization engine

Shallow embedding of the cross-layer artifact filtering and harmonization
logic of the `gemara-mcp-server` repository (`mcp` package): the guidance
applicability filter (`handleImportGuidelinesByCriteria`), the control label
filter (`handleImportControlsByLabel`), the control modifier synthesizer
(`handleCreateLayer3ControlModifiers`), and the scheme dispatch of the
layer-1 document loader (`loadLayer1Document`).

The record types mirror exactly the fields of the `gemara` layer1/layer2/
layer3 Go structures that the handlers read or write.  Go slices become
`List`, `nil`-able pointers become `Option`, and Go maps used only for
membership become lowercased `List` lookups (`List.contains`), which has the
same membership semantics.
-/

namespace GemaraMCP

/-! ## Layer 1 data model (fields used by the handlers) -/

/-- `layer1.Applicability`: document-level applicability sets. -/
structure Applicability where
  technologyDomains : List String
  industrySectors : List String
  jurisdictions : List String
deriving DecidableEq

/-- `layer1.Guideline`. -/
structure Guideline where
  id : String
  title : String
  objective : String
  recommendations : List String
deriving DecidableEq

/-- `layer1.Category`. -/
structure Category where
  id : String
  title : String
  description : String
  guidelines : List Guideline
deriving DecidableEq

/-- `layer1` document metadata: id plus the optional applicability block
(`doc.Metadata.Applicability` is a nil-able pointer in Go). -/
structure L1Metadata where
  id : String
  applicability : Option Applicability
deriving DecidableEq

/-- `layer1.GuidanceDocument`. -/
structure GuidanceDocument where
  metadata : L1Metadata
  categories : List Category
deriving DecidableEq

/-! ## Layer 2 data model (fields used by the handlers) -/

/-- `layer2.AssessmentRequirement`: carries an applicability label list. -/
structure AssessmentRequirement where
  id : String
  applicability : List String
deriving DecidableEq

/-- An entry of a `layer2` guideline mapping, carrying a `ReferenceId`. -/
structure MappingEntry where
  referenceId : String
deriving DecidableEq

/-- A `layer2` guideline mapping block: a list of entries. -/
structure GuidelineMappingBlock where
  entries : List MappingEntry
deriving DecidableEq

/-- `layer2.Control`. -/
structure Control where
  id : String
  title : String
  objective : String
  assessmentRequirements : List AssessmentRequirement
  guidelineMappings : List GuidelineMappingBlock
deriving DecidableEq

/-- `layer2.ControlFamily`. -/
structure ControlFamily where
  id : String
  title : String
  controls : List Control
deriving DecidableEq

/-- A catalog-level applicability category (`cat.Id` is what the filter reads). -/
structure ApplicabilityCategory where
  id : String
  title : String
deriving DecidableEq

/-- `layer2` catalog metadata: id plus `ApplicabilityCategories`. -/
structure L2Metadata where
  id : String
  applicabilityCategories : List ApplicabilityCategory
deriving DecidableEq

/-- `layer2.Catalog`. -/
structure Catalog where
  metadata : L2Metadata
  controlFamilies : List ControlFamily
deriving DecidableEq

/-! ## Layer 3 data model (fields the synthesizer writes) -/

/-- `layer3.ControlModifier` as populated by the synthesizer. -/
structure ControlModifier where
  targetId : String
  modType : String
  modificationRationale : String
  title : String
  objective : String
deriving DecidableEq

/-- `layer3.Scope`; the handler only ever uses the zero (empty) value, so we
model it as a list of scope entries, empty in the zero value. -/
structure Scope where
  entries : List String
deriving DecidableEq

/-- A `layer3` assessment-requirement modifier (never populated by the
handler; only the empty list is emitted). -/
structure AssessmentRequirementModifier where
  targetId : String
deriving DecidableEq

/-- A `layer3` guideline modifier (never populated by the handler). -/
structure GuidelineModifier where
  targetId : String
deriving DecidableEq

/-- `layer3.Mapping` as built by `handleCreateLayer3ControlModifiers`. -/
structure L3Mapping where
  referenceId : String
  controlModifications : List ControlModifier
  inScope : Scope
  outOfScope : Scope
  assessmentRequirementModifications : List AssessmentRequirementModifier
  guidelineModifications : List GuidelineModifier
deriving DecidableEq

/-! ## Shared helpers -/

/-- A concatenating map, transcribing Go loops that append into a shared
slice while iterating a nested structure. -/
def concatMap {α β : Type} (f : α → List β) : List α → List β
  | [] => []
  | a :: l => f a ++ concatMap f l

/-- ASCII lowercasing of a string, modelling `strings.ToLower` /
`strings.EqualFold` as the handlers use them (all labels and criteria the
handlers compare are ASCII).  Defined by a structural map over the
character data so that it evaluates by kernel reduction. -/
def lowerString (x : String) : String := String.mk (x.data.map Char.toLower)

/-- Case-insensitive string equality, modelling `strings.EqualFold`. -/
def eqFold (a b : String) : Bool := lowerString a == lowerString b

/-- A tool-call result: either an error-flagged response with a message, or
a structured payload, mirroring `mcp.CallToolResult` with its `IsError` flag. -/
inductive ToolResult (α : Type) where
  | error (message : String)
  | ok (payload : α)
deriving DecidableEq

/-! ## Guidance applicability filter (`handleImportGuidelinesByCriteria`) -/

/-- The per-guideline criteria check of `handleImportGuidelinesByCriteria`:
for a supplied (non-empty) criterion the corresponding document-level
applicability list must contain it modulo case; with no applicability block,
the guideline matches only when no criterion was supplied.  The guideline
itself is never consulted — the Go loop body reads only
`doc.Metadata.Applicability` and the request parameters. -/
def guidelineMatches (applicability : Option Applicability)
    (technology sector jurisdiction : String) : Bool :=
  match applicability with
  | some app =>
      (technology == "" || app.technologyDomains.any (fun t => eqFold t technology)) &&
      (sector == "" || app.industrySectors.any (fun s => eqFold s sector)) &&
      (jurisdiction == "" || app.jurisdictions.any (fun j => eqFold j jurisdiction))
  | none =>
      technology == "" && sector == "" && jurisdiction == ""

/-- Per-category step of the guidance filter: keep the matching guidelines
and drop the category when none remain (`len(matchingGuidelines) > 0`). -/
def keepCategory (keep : Guideline → Bool) (cat : Category) : Option Category :=
  let gs := cat.guidelines.filter keep
  if 0 < gs.length then some { cat with guidelines := gs } else none

/-- The guidance filter: transcription of the filtering loop of
`handleImportGuidelinesByCriteria` (after a successful load). -/
def filterGuidance (doc : GuidanceDocument)
    (technology sector jurisdiction : String) : GuidanceDocument :=
  { doc with
    categories := doc.categories.filterMap
      (keepCategory (fun _ =>
        guidelineMatches doc.metadata.applicability technology sector jurisdiction)) }

/-! ## Control label filter (`handleImportControlsByLabel`) -/

/-- The lowercased label lookup set (`labelMap` in the Go code, a
`map[string]bool` keyed by `strings.ToLower(label)`; membership semantics
are identical to a lowercased list with `contains`). -/
def labelLookup (labels : List String) : List String := labels.map lowerString

/-- The per-control match of `handleImportControlsByLabel`: first any
assessment requirement with any applicability entry in the lookup set; then,
only if that failed, the catalog-level applicability categories. -/
def controlMatches (catalog : Catalog) (labels : List String)
    (control : Control) : Bool :=
  let lm := labelLookup labels
  let reqMatch := control.assessmentRequirements.any (fun req =>
    req.applicability.any (fun app => lm.contains (lowerString app)))
  if reqMatch then true
  else if 0 < catalog.metadata.applicabilityCategories.length then
    catalog.metadata.applicabilityCategories.any (fun cat => lm.contains (lowerString cat.id))
  else false

/-- Per-family step of the control filter: keep matching controls, drop the
family when none remain. -/
def keepFamily (sel : Control → Bool) (fam : ControlFamily) : Option ControlFamily :=
  let cs := fam.controls.filter sel
  if 0 < cs.length then some { fam with controls := cs } else none

/-- The control filter: transcription of the filtering loop of
`handleImportControlsByLabel` (after a successful load). -/
def filterControls (catalog : Catalog) (labels : List String) : Catalog :=
  { catalog with
    controlFamilies := catalog.controlFamilies.filterMap
      (keepFamily (controlMatches catalog labels)) }

/-- `handleImportControlsByLabel` after argument binding: the empty-label
check runs before the catalog load.  The loader is passed in as a function
and the second component counts how many times it was invoked. -/
def handleImportControlsByLabel (load : String → Except String Catalog)
    (filePath : String) (labels : List String) : ToolResult Catalog × Nat :=
  if labels.length == 0 then
    (ToolResult.error "At least one label must be provided", 0)
  else
    match load filePath with
    | .error e => (ToolResult.error ("Error loading control catalog: " ++ e), 1)
    | .ok catalog => (ToolResult.ok (filterControls catalog labels), 1)

/-! ## Control modifier synthesizer (`handleCreateLayer3ControlModifiers`) -/

/-- The guideline-id lookup set built over all categories of the guidance
document (`guidelineMap` in the Go code; only membership is used). -/
def guidelineIds (doc : GuidanceDocument) : List String :=
  concatMap (fun cat => cat.guidelines.map (fun g => g.id)) doc.categories

/-- The modifiers the synthesizer emits for one control: transcription of
the nested loop over `control.GuidelineMappings` and `mapping.Entries`.  On
the first entry of a mapping block whose `referenceId` is in the lookup set
a modifier is appended and `break` is executed — which in the Go code exits
only the inner entries loop, so the iteration over the remaining mapping
blocks of the same control continues. -/
def modifiersForControl (gids : List String) (modType rationale : String)
    (control : Control) : List ControlModifier :=
  concatMap (fun mapping =>
    match mapping.entries.find? (fun entry => gids.contains entry.referenceId) with
    | some _ =>
        [{ targetId := control.id
           modType := modType
           modificationRationale := rationale
           title := control.title
           objective := control.objective }]
    | none => []) control.guidelineMappings

/-- The full modifier-generation loop over families and controls. -/
def synthControlModifiers (gdoc : GuidanceDocument) (catalog : Catalog)
    (modType rationale : String) : List ControlModifier :=
  let gids := guidelineIds gdoc
  concatMap (fun fam => concatMap (modifiersForControl gids modType rationale) fam.controls)
    catalog.controlFamilies

/-- The `layer3.Mapping` literal the handler builds: catalog metadata id as
`referenceId`, the synthesized modifiers, zero-value scopes and empty
assessment-requirement/guideline modification lists. -/
def synthMapping (gdoc : GuidanceDocument) (catalog : Catalog)
    (modType rationale : String) : L3Mapping :=
  { referenceId := catalog.metadata.id
    controlModifications := synthControlModifiers gdoc catalog modType rationale
    inScope := { entries := [] }
    outOfScope := { entries := [] }
    assessmentRequirementModifications := []
    guidelineModifications := [] }

/-- `handleCreateLayer3ControlModifiers` after argument binding: default the
modification type to `"alter"` when empty (no validation against the
`alter|add|remove` enumeration is performed), load both documents, and emit
the mapping.  The two loads are passed in as already-resolved results. -/
def handleCreateLayer3ControlModifiers (loadGuidelines : Except String GuidanceDocument)
    (loadControls : Except String Catalog)
    (rationale modType : String) : ToolResult L3Mapping :=
  let mt := if modType == "" then "alter" else modType
  match loadGuidelines with
  | .error e => ToolResult.error ("Error loading guidelines document: " ++ e)
  | .ok gdoc =>
    match loadControls with
    | .error e => ToolResult.error ("Error loading controls catalog: " ++ e)
    | .ok catalog => ToolResult.ok (synthMapping gdoc catalog mt rationale)

/-! ## Layer-1 loader scheme dispatch (`loadLayer1Document`) -/

/-- Go `net/url` rejects URLs containing ASCII control bytes. -/
def containsCTLByte (s : String) : Bool :=
  s.toList.any (fun c => c.toNat < 0x20 || c.toNat == 0x7f)

/-- Transcription of Go `net/url.getScheme`: scan characters; letters may
continue a scheme, digits and `+ - .` may continue but not start one, a
colon after a non-empty scheme prefix ends it (lowercased), a leading colon
is an error, and any other character means the URL has no scheme. -/
def getSchemeAux : List Char → Nat → List Char → Except String String
  | [], _, _ => Except.ok ""
  | c :: rest, i, acc =>
    if ('a' ≤ c && c ≤ 'z') || ('A' ≤ c && c ≤ 'Z') then
      getSchemeAux rest (i + 1) (acc ++ [c])
    else if ('0' ≤ c && c ≤ '9') || c == '+' || c == '-' || c == '.' then
      if i == 0 then Except.ok "" else getSchemeAux rest (i + 1) (acc ++ [c])
    else if c == ':' then
      if i == 0 then Except.error "missing protocol scheme"
      else Except.ok (String.mk acc).toLower
    else Except.ok ""

/-- The scheme extraction of Go `url.Parse` as observed by
`loadLayer1Document`: an error for control characters or a leading colon,
otherwise the (possibly empty) scheme.  (The remaining `url.Parse` error
cases — malformed percent escapes — likewise route to the error branch and
do not affect the inputs considered here.) -/
def urlParseScheme (rawURL : String) : Except String String :=
  if containsCTLByte rawURL then
    Except.error "net/url: invalid control character in URL"
  else getSchemeAux rawURL.toList 0 []

/-- Where a document reference is routed. -/
inductive LoadRoute where
  | localFile (path : String)
  | httpFetch (url : String)
  | unsupportedScheme (scheme : String)
deriving DecidableEq

/-- Models `strings.TrimPrefix(parsedURL.String(), "file://")` for the
`file` scheme branch. -/
def stripFileScheme (s : String) : String :=
  if s.startsWith "file://" then s.drop 7 else s

/-- Scheme dispatch of `loadLayer1Document`: a parse error falls back to the
local file loader; `http(s)` goes to the URL loader; `file` is stripped and
goes to the file loader; any other scheme — including the empty scheme that
`url.Parse` reports for a bare filesystem path — is rejected as
unsupported. -/
def loadLayer1Route (filePath : String) : LoadRoute :=
  match urlParseScheme filePath with
  | .error _ => LoadRoute.localFile filePath
  | .ok scheme =>
    if scheme == "https" || scheme == "http" then LoadRoute.httpFetch filePath
    else if scheme == "file" then LoadRoute.localFile (stripFileScheme filePath)
    else LoadRoute.unsupportedScheme scheme

/-! ## Helper lemmas -/

theorem filter_const_true {α : Type} (l : List α) : l.filter (fun _ => true) = l := by
  induction l with
  | nil => rfl
  | cons a l ih => simp [List.filter_cons, ih]

theorem filter_const_false {α : Type} (l : List α) : l.filter (fun _ => false) = [] := by
  induction l with
  | nil => rfl
  | cons a l ih => simp [List.filter_cons, ih]

theorem filter_filter_self {α : Type} (p : α → Bool) (l : List α) :
    (l.filter p).filter p = l.filter p := by
  induction l with
  | nil => rfl
  | cons a l ih =>
    cases hp : p a <;> simp [List.filter_cons, hp, ih]

theorem filterMap_idem_of_stable {α : Type} (f : α → Option α)
    (h : ∀ a b, f a = some b → f b = some b) (l : List α) :
    (l.filterMap f).filterMap f = l.filterMap f := by
  induction l with
  | nil => rfl
  | cons a l ih =>
    cases hfa : f a with
    | none => simp [List.filterMap_cons, hfa, ih]
    | some b => simp [List.filterMap_cons, hfa, h a b hfa, ih]

theorem keepCategory_stable (keep : Guideline → Bool) (a b : Category)
    (hab : keepCategory keep a = some b) : keepCategory keep b = some b := by
  unfold keepCategory at hab ⊢
  by_cases h : 0 < (a.guidelines.filter keep).length
  · rw [if_pos h] at hab
    cases hab
    show (if 0 < ((a.guidelines.filter keep).filter keep).length then
        some { a with guidelines := (a.guidelines.filter keep).filter keep }
      else none) = some { a with guidelines := a.guidelines.filter keep }
    rw [filter_filter_self]
    exact if_pos h
  · rw [if_neg h] at hab
    exact absurd hab (by simp)

theorem keepFamily_stable (sel : Control → Bool) (a b : ControlFamily)
    (hab : keepFamily sel a = some b) : keepFamily sel b = some b := by
  unfold keepFamily at hab ⊢
  by_cases h : 0 < (a.controls.filter sel).length
  · rw [if_pos h] at hab
    cases hab
    show (if 0 < ((a.controls.filter sel).filter sel).length then
        some { a with controls := (a.controls.filter sel).filter sel }
      else none) = some { a with controls := a.controls.filter sel }
    rw [filter_filter_self]
    exact if_pos h
  · rw [if_neg h] at hab
    exact absurd hab (by simp)

/-- The guidance filter in closed form: the match decision is taken once per
document (it reads nothing from the individual guideline), so the result is
either the document with its guideline-less categories removed, or the
document with zero categories. -/
theorem filterGuidance_char (doc : GuidanceDocument) (t s j : String) :
    filterGuidance doc t s j =
      if guidelineMatches doc.metadata.applicability t s j then
        { doc with categories := doc.categories.filter (fun c => 0 < c.guidelines.length) }
      else
        { doc with categories := [] } := by
  unfold filterGuidance
  cases hb : guidelineMatches doc.metadata.applicability t s j with
  | false =>
    have hfm : ∀ l : List Category, l.filterMap (keepCategory (fun _ => false)) = [] := by
      intro l
      induction l with
      | nil => rfl
      | cons a l ih =>
        simp [List.filterMap_cons, keepCategory, filter_const_false, ih]
    rw [if_neg Bool.false_ne_true, hfm]
  | true =>
    have hfm : ∀ l : List Category,
        l.filterMap (keepCategory (fun _ => true)) =
          l.filter (fun c => 0 < c.guidelines.length) := by
      intro l
      induction l with
      | nil => rfl
      | cons a l ih =>
        have heta : ({ a with guidelines := a.guidelines } : Category) = a := rfl
        by_cases h : 0 < a.guidelines.length
        · simp [List.filterMap_cons, List.filter_cons, keepCategory, filter_const_true,
            h, ih, heta]
        · simp [List.filterMap_cons, List.filter_cons, keepCategory, filter_const_true,
            h, ih]
    rw [if_pos (show true = true from rfl), hfm]

theorem filterGuidance_idem_aux (doc : GuidanceDocument) (t s j : String) :
    filterGuidance (filterGuidance doc t s j) t s j = filterGuidance doc t s j := by
  show ({ doc with
      categories :=
        (doc.categories.filterMap
          (keepCategory (fun _ =>
            guidelineMatches doc.metadata.applicability t s j))).filterMap
          (keepCategory (fun _ =>
            guidelineMatches doc.metadata.applicability t s j)) } : GuidanceDocument) =
    { doc with
      categories := doc.categories.filterMap
        (keepCategory (fun _ =>
          guidelineMatches doc.metadata.applicability t s j)) }
  rw [filterMap_idem_of_stable _
    (keepCategory_stable (fun _ => guidelineMatches doc.metadata.applicability t s j))]

theorem filterControls_idem_aux (catalog : Catalog) (labels : List String) :
    filterControls (filterControls catalog labels) labels = filterControls catalog labels := by
  show ({ catalog with
      controlFamilies :=
        (catalog.controlFamilies.filterMap
          (keepFamily (controlMatches catalog labels))).filterMap
          (keepFamily (controlMatches catalog labels)) } : Catalog) =
    { catalog with
      controlFamilies := catalog.controlFamilies.filterMap
        (keepFamily (controlMatches catalog labels)) }
  rw [filterMap_idem_of_stable _ (keepFamily_stable (controlMatches catalog labels))]

theorem concatMap_eq_nil {α β : Type} (f : α → List β) (l : List α)
    (h : ∀ a ∈ l, f a = []) : concatMap f l = [] := by
  induction l with
  | nil => rfl
  | cons a l ih =>
    simp only [concatMap, h a (by simp), List.nil_append]
    exact ih (fun a ha => h a (by simp [ha]))

theorem mem_concatMap {α β : Type} (f : α → List β) (l : List α) (b : β) :
    b ∈ concatMap f l ↔ ∃ a ∈ l, b ∈ f a := by
  induction l with
  | nil => simp [concatMap]
  | cons a l ih => simp [concatMap, List.mem_append, ih]

theorem labelLookup_contains (labels : List String) (x : String) :
    ((labelLookup labels).contains x = true) ↔ ∃ l ∈ labels, lowerString l = x := by
  simp [labelLookup, List.contains_iff_exists_mem_beq, List.mem_map]

theorem controlMatches_eq (catalog : Catalog) (labels : List String) (control : Control) :
    controlMatches catalog labels control =
      ((control.assessmentRequirements.any fun req =>
          req.applicability.any fun app => (labelLookup labels).contains (lowerString app)) ||
       (catalog.metadata.applicabilityCategories.any fun cat =>
          (labelLookup labels).contains (lowerString cat.id))) := by
  show (if (control.assessmentRequirements.any fun req =>
        req.applicability.any fun app => (labelLookup labels).contains (lowerString app)) then
      true
    else if 0 < catalog.metadata.applicabilityCategories.length then
      catalog.metadata.applicabilityCategories.any fun cat =>
        (labelLookup labels).contains (lowerString cat.id)
    else false) =
    ((control.assessmentRequirements.any fun req =>
        req.applicability.any fun app => (labelLookup labels).contains (lowerString app)) ||
     (catalog.metadata.applicabilityCategories.any fun cat =>
        (labelLookup labels).contains (lowerString cat.id)))
  cases hreq : (control.assessmentRequirements.any fun req =>
      req.applicability.any fun app => (labelLookup labels).contains (lowerString app)) with
  | true => rw [if_pos (show true = true from rfl), Bool.true_or]
  | false =>
    rw [if_neg Bool.false_ne_true, Bool.false_or]
    cases hcats : catalog.metadata.applicabilityCategories with
    | nil => rw [if_neg (by simp)]; rfl
    | cons c cs => rw [if_pos (by simp)]

theorem synthControlModifiers_modType (gdoc : GuidanceDocument) (catalog : Catalog)
    (mt r : String) :
    ∀ cm ∈ synthControlModifiers gdoc catalog mt r, cm.modType = mt := by
  intro cm hcm
  unfold synthControlModifiers at hcm
  rw [mem_concatMap] at hcm
  obtain ⟨fam, _, hcm⟩ := hcm
  rw [mem_concatMap] at hcm
  obtain ⟨control, _, hcm⟩ := hcm
  unfold modifiersForControl at hcm
  rw [mem_concatMap] at hcm
  obtain ⟨mapping, _, hcm⟩ := hcm
  cases hfind : mapping.entries.find?
      (fun entry => (guidelineIds gdoc).contains entry.referenceId) with
  | none => rw [hfind] at hcm; exact absurd hcm (by simp)
  | some e =>
    rw [hfind] at hcm
    simp only [List.mem_singleton] at hcm
    rw [hcm]

theorem synthControlModifiers_empty (gdoc : GuidanceDocument) (catalog : Catalog)
    (mt r : String)
    (h : ∀ fam ∈ catalog.controlFamilies, ∀ c ∈ fam.controls,
        ∀ gm ∈ c.guidelineMappings, ∀ e ∈ gm.entries,
          (guidelineIds gdoc).contains e.referenceId = false) :
    synthControlModifiers gdoc catalog mt r = [] := by
  unfold synthControlModifiers
  refine concatMap_eq_nil _ _ (fun fam hfam => ?_)
  refine concatMap_eq_nil _ _ (fun control hctrl => ?_)
  unfold modifiersForControl
  refine concatMap_eq_nil _ _ (fun mapping hmap => ?_)
  have hnone : mapping.entries.find?
      (fun entry => (guidelineIds gdoc).contains entry.referenceId) = none := by
    rw [List.find?_eq_none]
    intro e he
    simpa using h fam hfam control hctrl mapping hmap e he
  rw [hnone]

/-! ## Sample documents used by counterexamples and witnesses -/

/-- A guidance document with a single guideline `g1` and no applicability
block. -/
def gdocOne : GuidanceDocument :=
  { metadata := { id := "gd1", applicability := none }
    categories := [ { id := "cat1", title := "C", description := ""
                      guidelines := [ { id := "g1", title := "G", objective := ""
                                        recommendations := [] } ] } ] }

/-- A control with two guideline-mapping blocks, both of whose entries
reference the same resolvable guideline `g1`. -/
def ctrlTwoMappings : Control :=
  { id := "c1", title := "T", objective := "O"
    assessmentRequirements := []
    guidelineMappings := [ { entries := [ { referenceId := "g1" } ] },
                           { entries := [ { referenceId := "g1" } ] } ] }

/-- A catalog containing only `ctrlTwoMappings`. -/
def catTwoMappings : Catalog :=
  { metadata := { id := "cat-id-1", applicabilityCategories := [] }
    controlFamilies := [ { id := "f1", title := "F", controls := [ctrlTwoMappings] } ] }

/-- A guidance document with one category that contains zero guidelines. -/
def gdocEmptyCat : GuidanceDocument :=
  { metadata := { id := "d1", applicability := none }
    categories := [ { id := "empty-cat", title := "E", description := ""
                      guidelines := [] } ] }

/-- Applicability block from the spec examples. -/
def appSample : Applicability :=
  { technologyDomains := ["cloud-computing"]
    industrySectors := ["healthcare"]
    jurisdictions := ["US"] }

/-- A control whose single assessment requirement carries the label
`tlp_clear` (spec §8 example). -/
def ctrlTlp : Control :=
  { id := "c5", title := "", objective := ""
    assessmentRequirements := [ { id := "r1", applicability := ["tlp_clear"] } ]
    guidelineMappings := [] }

/-- A catalog containing only `ctrlTlp`, with no catalog-level categories. -/
def catTlp : Catalog :=
  { metadata := { id := "cat5", applicabilityCategories := [] }
    controlFamilies := [ { id := "f5", title := "", controls := [ctrlTlp] } ] }

/-- A guidance document with no categories at all. -/
def gdocBare : GuidanceDocument :=
  { metadata := { id := "gd7", applicability := none }, categories := [] }

/-- A control whose only guideline reference does not resolve against
`gdocBare`. -/
def ctrlUnresolved : Control :=
  { id := "c7", title := "", objective := ""
    assessmentRequirements := []
    guidelineMappings := [ { entries := [ { referenceId := "nope" } ] } ] }

/-- A catalog containing only `ctrlUnresolved`. -/
def catUnresolved : Catalog :=
  { metadata := { id := "cat7", applicabilityCategories := [] }
    controlFamilies := [ { id := "f7", title := "F", controls := [ctrlUnresolved] } ] }

/-! ## Claims -/

/-- C1: evaluating the synthesizer at a control carrying two guideline
mapping blocks whose entries both resolve: the `break` in the Go code exits
only the inner entries loop, so one modifier is emitted per resolving
mapping block and the control id `c1` receives two modifiers — refuting the
at-most-one-modifier-per-control rule the code's own comment states. -/
theorem c1_two_modifiers_for_one_control :
    ((synthControlModifiers gdocOne catTwoMappings "alter" "r").map fun m => m.targetId) =
      ["c1", "c1"] := by decide

/-- C2: the scheme dispatch of `loadLayer1Document` at the bare filesystem
path `/tmp/doc.yaml`: `url.Parse` succeeds with an empty scheme, so the
reference is rejected as an unsupported scheme instead of being loaded as a
local file. -/
theorem c2_bare_path_rejected :
    loadLayer1Route "/tmp/doc.yaml" = LoadRoute.unsupportedScheme "" := by decide

/-- C3 counterexample: filtering a document holding one category with zero
guidelines using no criteria drops that category, so the output is not the
input unchanged. -/
theorem c3_counterexample : filterGuidance gdocEmptyCat "" "" "" ≠ gdocEmptyCat := by
  decide

/-- C3 (amended): the Guidance filter with no criteria returns the document
with the same metadata and the category sequence restricted to categories
holding at least one guideline, each with its guideline sequence unchanged;
categories containing zero guidelines are dropped. -/
theorem c3_no_criteria_keeps_nonempty_categories (doc : GuidanceDocument) :
    filterGuidance doc "" "" "" =
      { doc with categories := doc.categories.filter (fun c => 0 < c.guidelines.length) } := by
  have hb : guidelineMatches doc.metadata.applicability "" "" "" = true := by
    cases doc.metadata.applicability <;> simp [guidelineMatches]
  rw [filterGuidance_char, if_pos hb]

/-- C4: a guideline matches iff each supplied non-empty criterion occurs,
case-insensitively as an exact string, in the corresponding set of the
document-level applicability block; with no applicability block only empty
criteria match (fail closed); with no criteria everything matches. -/
theorem c4_guideline_match_rule (applicability : Option Applicability)
    (t s j : String) :
    guidelineMatches applicability t s j = true ↔
      (match applicability with
       | some app =>
         (t ≠ "" → ∃ x ∈ app.technologyDomains, lowerString x = lowerString t) ∧
         (s ≠ "" → ∃ x ∈ app.industrySectors, lowerString x = lowerString s) ∧
         (j ≠ "" → ∃ x ∈ app.jurisdictions, lowerString x = lowerString j)
       | none => t = "" ∧ s = "" ∧ j = "") := by
  cases applicability with
  | none => simp [guidelineMatches, and_assoc]
  | some app =>
    simp only [guidelineMatches, Bool.and_eq_true, Bool.or_eq_true, List.any_eq_true,
      beq_iff_eq, eqFold, ne_eq, or_iff_not_imp_left, and_assoc]

/-- C4 witness: case-varied criteria `Cloud-Computing` / `us` match the
sample applicability block. -/
theorem c4_witness : guidelineMatches (some appSample) "Cloud-Computing" "" "us" = true :=
  (c4_guideline_match_rule (some appSample) "Cloud-Computing" "" "us").mpr (by decide)

/-- C5: for a non-empty label set, a control matches iff some assessment
requirement has some applicability entry in the caller's label set
(case-insensitively), or some catalog-level applicability-category id is in
it — the second disjunct not depending on the control at all. -/
theorem c5_control_match_rule (catalog : Catalog) (labels : List String)
    (control : Control) (h : labels ≠ []) :
    controlMatches catalog labels control = true ↔
      ((∃ req ∈ control.assessmentRequirements, ∃ a ∈ req.applicability,
          ∃ l ∈ labels, lowerString l = lowerString a) ∨
       (∃ cat ∈ catalog.metadata.applicabilityCategories,
          ∃ l ∈ labels, lowerString l = lowerString cat.id)) := by
  rw [controlMatches_eq]
  simp only [Bool.or_eq_true, List.any_eq_true, labelLookup_contains]

/-- C5 witness: the spec §8 example — the case-mismatched label `TLP_CLEAR`
selects the control whose requirement carries `tlp_clear`. -/
theorem c5_witness : controlMatches catTlp ["TLP_CLEAR"] ctrlTlp = true :=
  (c5_control_match_rule catTlp ["TLP_CLEAR"] ctrlTlp (by decide)).mpr (by decide)

/-- C6: both filters are idempotent — re-filtering a filtered document or
catalog with the same criteria or label set returns it unchanged. -/
theorem c6_filters_idempotent :
    (∀ (doc : GuidanceDocument) (t s j : String),
        filterGuidance (filterGuidance doc t s j) t s j = filterGuidance doc t s j) ∧
    (∀ (catalog : Catalog) (labels : List String),
        filterControls (filterControls catalog labels) labels = filterControls catalog labels) :=
  ⟨filterGuidance_idem_aux, filterControls_idem_aux⟩

/-- C7: once both documents load, the synthesizer returns a Mapping (never
an error) whose referenceId is the catalog's metadata id, with empty scopes
and empty assessment-requirement/guideline modification lists; with zero
resolvable guideline references the modifier list is empty, not an error. -/
theorem c7_synth_mapping_shape (gdoc : GuidanceDocument) (catalog : Catalog)
    (rationale modType : String) :
    ∃ m : L3Mapping,
      handleCreateLayer3ControlModifiers (Except.ok gdoc) (Except.ok catalog)
        rationale modType = ToolResult.ok m ∧
      m.referenceId = catalog.metadata.id ∧
      m.inScope = { entries := [] } ∧
      m.outOfScope = { entries := [] } ∧
      m.assessmentRequirementModifications = [] ∧
      m.guidelineModifications = [] ∧
      ((∀ fam ∈ catalog.controlFamilies, ∀ c ∈ fam.controls,
          ∀ gm ∈ c.guidelineMappings, ∀ e ∈ gm.entries,
            (guidelineIds gdoc).contains e.referenceId = false) →
        m.controlModifications = []) := by
  refine ⟨synthMapping gdoc catalog (if modType == "" then "alter" else modType) rationale,
    rfl, rfl, rfl, rfl, rfl, rfl, fun h => ?_⟩
  exact synthControlModifiers_empty gdoc catalog _ _ h

/-- C7 witness: a catalog whose only guideline reference does not resolve
yields the Mapping referencing `cat7` with an empty modifier list. -/
theorem c7_witness :
    ∃ m : L3Mapping,
      handleCreateLayer3ControlModifiers (Except.ok gdocBare) (Except.ok catUnresolved)
        "r" "" = ToolResult.ok m ∧
      m.referenceId = "cat7" ∧ m.controlModifications = [] := by
  obtain ⟨m, hm, href, _, _, _, _, himp⟩ :=
    c7_synth_mapping_shape gdocBare catUnresolved "r" ""
  exact ⟨m, hm, by rw [href]; rfl, himp (by decide)⟩

/-- C8: the control filter rejects an empty label list with an error-flagged
usage response before any document load: for every loader and file path the
loader is invoked zero times and the response is the usage error. -/
theorem c8_empty_labels_rejected (load : String → Except String Catalog)
    (filePath : String) :
    handleImportControlsByLabel load filePath [] =
      (ToolResult.error "At least one label must be provided", 0) := rfl

/-- C9: the guidance filter is all-or-nothing — the per-guideline decision
reads only the document-level applicability and the supplied criteria, so
either every guideline survives (the input minus its guideline-less
categories) or none does (zero categories). -/
theorem c9_guidance_filter_all_or_nothing (doc : GuidanceDocument) (t s j : String) :
    filterGuidance doc t s j =
      if guidelineMatches doc.metadata.applicability t s j then
        { doc with categories := doc.categories.filter (fun c => 0 < c.guidelines.length) }
      else
        { doc with categories := [] } :=
  filterGuidance_char doc t s j

/-- C10: `modification_type` is not validated against the alter|add|remove
enumeration: every supplied string yields a successful Mapping, and each
emitted modifier's modType is that string verbatim (or `alter` when it is
empty). -/
theorem c10_modtype_unvalidated (gdoc : GuidanceDocument) (catalog : Catalog)
    (rationale modType : String) :
    ∃ m : L3Mapping,
      handleCreateLayer3ControlModifiers (Except.ok gdoc) (Except.ok catalog)
        rationale modType = ToolResult.ok m ∧
      ∀ cm ∈ m.controlModifications,
        cm.modType = if modType = "" then "alter" else modType := by
  refine ⟨_, rfl, fun cm hcm => ?_⟩
  have hmt := synthControlModifiers_modType gdoc catalog
      (if modType == "" then "alter" else modType) rationale cm hcm
  rw [hmt]
  by_cases h : modType = "" <;> simp [h]

/-- C10 witness: the out-of-enumeration string `totally-bogus` is accepted
and copied verbatim into every emitted modifier. -/
theorem c10_witness :
    ∃ m : L3Mapping,
      handleCreateLayer3ControlModifiers (Except.ok gdocOne) (Except.ok catTwoMappings)
        "r" "totally-bogus" = ToolResult.ok m ∧
      ∀ cm ∈ m.controlModifications, cm.modType = "totally-bogus" := by
  obtain ⟨m, hm, hall⟩ := c10_modtype_unvalidated gdocOne catTwoMappings "r" "totally-bogus"
  refine ⟨m, hm, fun cm hcm => ?_⟩
  simpa using hall cm hcm

end GemaraMCP
